import Mathlib

/-!
Verification development for the dspy-hub client SDK
(`src/dspy_hub/hub.py` and `src/dspy_hub/config.py`).

The Python source is shallowly embedded: Python dicts become association
lists over a JSON-like value type, bytes become `List Nat`, and fallible
code returns `Except`.  External collaborators (the HTTP transport, the
SHA-256 primitive from `hashlib`, the JSON decoder from `json`, the path
expansion from `pathlib`, and the host framework's save/load hooks) enter
as explicit function parameters, exactly at the boundary the code uses
them; everything else is translated from the source line by line.
-/

/-- Raw byte strings (`bytes` in Python), one `Nat` per byte. -/
abbrev Bytes := List Nat

/-- JSON-like values: the payloads stored in Python dict-shaped manifests. -/
inductive JVal where
  | null
  | bool (b : Bool)
  | num (n : Int)
  | str (s : String)
  | arr (elems : List JVal)
  | dict (entries : List (String × JVal))

/-- Python truthiness (`bool(v)`) for JSON-like values. -/
def jTruthy : JVal → Bool
  | .null => false
  | .bool b => b
  | .num n => n != 0
  | .str s => s ≠ ""
  | .arr l => !l.isEmpty
  | .dict l => !l.isEmpty

/-- `d.get(k)` on a Python dict, embedded as an association list whose
significant binding for a key is the first one. -/
def alGet {α : Type} (d : List (String × α)) (k : String) : Option α :=
  match d with
  | [] => none
  | (k', v) :: rest => if k' = k then some v else alGet rest k

/-- `d[k] = v` on a Python dict: overwrite the binding in place if the key is
present, otherwise append the new binding (insertion order is preserved). -/
def alInsert {α : Type} (d : List (String × α)) (k : String) (v : α) :
    List (String × α) :=
  match d with
  | [] => [(k, v)]
  | (k', v') :: rest =>
    if k' = k then (k', v) :: rest else (k', v') :: alInsert rest k v

/-- `d.setdefault(k, v)`: insert at the end only when the key is absent. -/
def alSetdefault {α : Type} (d : List (String × α)) (k : String) (v : α) :
    List (String × α) :=
  match alGet d k with
  | some _ => d
  | none => d ++ [(k, v)]

/-- `{**a, **b}`: start from `a` and write every binding of `b` over it,
in order, as `save_to_hub` does for metadata merging (hub.py line 186). -/
def dictMerge (a b : List (String × JVal)) : List (String × JVal) :=
  b.foldl (fun acc kv => alInsert acc kv.1 kv.2) a

/-- `package.manifest.get("metadata", {})` viewed as dict entries: a present
dict yields its entries, an absent key yields the empty dict.  (A present
non-dict value would make Python's `{**...}` splat raise; packages built by
this module always store a dict there.) -/
def asDictEntries : Option JVal → List (String × JVal)
  | some (.dict es) => es
  | _ => []

/-- Python whitespace characters recognised by `str.strip()` (ASCII range,
which is all the source ever feeds it). -/
def isPyWS (c : Char) : Bool :=
  c = ' ' || c = '\t' || c = '\n' || c = '\r' || c = '\x0b' || c = '\x0c'

/-- `str.strip()` on the underlying character list: drop whitespace from the
front, then from the back. -/
def pyStripL (l : List Char) : List Char :=
  List.rdropWhile isPyWS (List.dropWhile isPyWS l)

/-- `str.strip()`. -/
def pyStrip (s : String) : String :=
  String.mk (pyStripL s.toList)

/-- `s.lstrip("/")`: drop leading slash characters. -/
def lstripSlash (s : String) : String :=
  String.mk (s.toList.dropWhile (· = '/'))

/-- Python `str.split(sep)` for a one-character separator, on the
underlying character list; like Python's, it never returns an empty list
(the empty string splits to one empty piece). -/
def splitOnChar (sep : Char) : List Char → List (List Char)
  | [] => [[]]
  | c :: rest =>
    match splitOnChar sep rest with
    | [] => [[]]
    | h :: t => if c = sep then [] :: h :: t else (c :: h) :: t

/-- Python `c in s` for a single character. -/
def pyContains (s : String) (c : Char) : Bool :=
  s.toList.contains c

/-- Python `s.endswith(suf)`. -/
def pyEndsWith (s suf : String) : Bool :=
  suf.toList.isSuffixOf s.toList

/-- `identifier.split("/", 1)` (Python `maxsplit=1`), as the pair of the part
before the first slash and everything after it.  The source only reads the
second component after checking that a slash is present, so the no-slash
fallback value is never observed. -/
def splitFirstPy (s : String) : String × String :=
  match splitOnChar '/' s.toList with
  | [] => (s, "")
  | [x] => (String.mk x, "")
  | x :: rest => (String.mk x, String.mk (List.intercalate ['/'] rest))

/-- `_default_target` (hub.py lines 289-290): `source.split("/")[-1]`, the
last slash-separated segment.  Python `split` never returns an empty list,
so the `getLastD` default is never observed. -/
def _default_target (source : String) : String :=
  String.mk ((splitOnChar '/' source.toList).getLastD [])

/-- `s.encode("utf-8")` for the aggregate-hash input. -/
def utf8Bytes (s : String) : Bytes :=
  s.toUTF8.toList.map (fun b => b.toNat)

/-- `HubFile` (hub.py lines 25-41): one artifact file of a package. -/
structure HubFile where
  source : String
  target : String
  content : Bytes
  sha256 : String
deriving Repr, DecidableEq

/-- `HubPackage` (hub.py lines 44-58): a materialized package. -/
structure HubPackage where
  identifier : String
  manifest : List (String × JVal)
  files : List HubFile

/-- `HubPackage.file_map` (hub.py lines 52-53): the dict comprehension
`{f.target: f for f in files}`, i.e. successive keyed insertions in
declaration order, so a later file overwrites an earlier one with the
same target. -/
def file_map (package : HubPackage) : List (String × HubFile) :=
  package.files.foldl (fun acc f => alInsert acc f.target f) []

/-- The exceptions the embedded operations raise, with the data their
formatted messages carry.
* `invalidIdentifier`: `PackageNotFoundError` with the
  must-be-author-slash-name message (hub.py lines 69-71, 390-392, 395-397),
  and the `ValueError` rejecting namespaced names on the write path
  (hub.py lines 307-311); the spec calls this taxon `InvalidIdentifier`.
* `artifactNotFound`: `RegistryError` naming the package and the hint
  (hub.py lines 370-372); spec taxon `ArtifactNotFound`.
* `identifierMismatch`: `ValueError` with expected/got (hub.py lines 163-166).
* `bareNameRequired`: `ValueError` for a slash in the package name on the
  publish path (hub.py lines 169-173).
* `missingCredential`: `RegistryError` for the missing dev key
  (hub.py lines 179-183); spec taxon `MissingCredential`.
* `indexError`: Python `IndexError` from `package.files[0]` on an empty
  file list (hub.py line 373).
* `illTypedValue`: a manifest file entry whose `source`/`target` is not a
  string, which would make the Python pipeline fall over inside the
  transport or string operations. -/
inductive HubError where
  | invalidIdentifier
  | artifactNotFound (pkgIdent hint : String)
  | identifierMismatch (expected got : String)
  | bareNameRequired
  | missingCredential
  | indexError
  | illTypedValue
deriving Repr, DecidableEq

/-- `file_spec.get("source")` where the pipeline needs a string (it is passed
to `repository.fetch_bytes` and to `_default_target`): a missing or non-string
source is the ill-typed case. -/
def specSource (spec : List (String × JVal)) : Option String :=
  match alGet spec "source" with
  | some (.str s) => some s
  | _ => none

/-- `file_spec.get("target") or _default_target(source)` (hub.py line 84):
a missing or falsy target falls back to the last segment of the source; a
truthy non-string target is the ill-typed case. -/
def specTarget (spec : List (String × JVal)) (source : String) : Option String :=
  match alGet spec "target" with
  | none => some (_default_target source)
  | some v =>
    if jTruthy v then
      match v with
      | .str s => some s
      | _ => none
    else some (_default_target source)

/-- The per-file loop of `load_from_hub` (hub.py lines 81-92): resolve the
target, fetch the bytes through the repository capability, recompute the
digest with `hashlib.sha256(...).hexdigest()` (the `sha` parameter), and
build both the `HubFile` list and the sanitized `updated_files` entries
(`dict(file_spec)` with `target` and `sha256` overwritten). -/
def materializeFiles (fetch : String → Bytes) (sha : Bytes → String) :
    List (List (String × JVal)) → Option (List HubFile × List JVal)
  | [] => some ([], [])
  | spec :: rest =>
    (specSource spec).bind fun source =>
      (specTarget spec source).bind fun target =>
        let content := fetch source
        let digest := sha content
        (materializeFiles fetch sha rest).bind fun pr =>
          some ({ source := source, target := target, content := content,
                  sha256 := digest } :: pr.1,
                JVal.dict
                  (alInsert (alInsert spec "target" (JVal.str target))
                    "sha256" (JVal.str digest)) :: pr.2)

/-- `load_from_hub` (hub.py lines 61-105).  The external repository is
abstracted at exactly the interface the source uses: `raw` stands for
`package.raw`, `specs` for `package.files` (the declared file entries of
the registry manifest), and `fetch` for `repository.fetch_bytes`.  `sha`
stands for `hashlib.sha256(...).hexdigest()`. -/
def load_from_hub (fetch : String → Bytes) (sha : Bytes → String)
    (identifier : String) (raw : List (String × JVal))
    (specs : List (List (String × JVal))) : Except HubError HubPackage :=
  if identifier = "" ∨ pyContains identifier '/' = false then
    .error .invalidIdentifier
  else
    match materializeFiles fetch sha specs with
    | none => .error .illTypedValue
    | some (files, updated_files) =>
      let manifest := alInsert raw "files" (JVal.arr updated_files)
      let manifest :=
        alSetdefault manifest "author" (JVal.str (splitFirstPy identifier).1)
      let manifest :=
        alSetdefault manifest "name" (JVal.str (splitFirstPy identifier).2)
      let manifest :=
        match alGet manifest "metadata" with
        | some (.dict _) => manifest
        | _ => alInsert manifest "metadata" (JVal.dict [])
      let manifest :=
        if files.isEmpty then manifest
        else
          alInsert manifest "hash"
            (JVal.str
              (sha (utf8Bytes
                (String.intercalate "::" (files.map (fun f => f.sha256))))))
      let manifest := alInsert manifest "slug" (JVal.str identifier)
      .ok { identifier := identifier, manifest := manifest, files := files }

/-- `_split_identifier` (hub.py lines 388-398): require a slash and two
non-empty halves around the first one, else raise the author-slash-name
`PackageNotFoundError`. -/
def _split_identifier (identifier : String) :
    Except HubError (String × String) :=
  if pyContains identifier '/' = false then .error .invalidIdentifier
  else
    let p := splitFirstPy identifier
    if p.1 = "" ∨ p.2 = "" then .error .invalidIdentifier
    else .ok p

/-- `_select_package_file` (hub.py lines 358-373).  `if target:` is Python
truthiness, so both `None` and the empty string route to
`package.files[0]`; the exact match goes through `file_map`, the fallback
scans `package.files` for the first target ending in the hint's basename. -/
def _select_package_file (package : HubPackage) (target : Option String) :
    Except HubError HubFile :=
  let firstFile :=
    match package.files with
    | [] => Except.error HubError.indexError
    | f :: _ => Except.ok f
  match target with
  | none => firstFile
  | some t =>
    if t = "" then firstFile
    else
      match alGet (file_map package) t with
      | some candidate => .ok candidate
      | none =>
        let basename := _default_target t
        match package.files.find? (fun f => pyEndsWith f.target basename) with
        | some candidate => .ok candidate
        | none => .error (.artifactNotFound package.identifier t)

/-- `_guess_mime` (hub.py lines 401-410). -/
def _guess_mime (path : String) : String :=
  if pyEndsWith path ".json" then "application/json"
  else if pyEndsWith path ".py" then "text/x-python"
  else if pyEndsWith path ".md" then "text/markdown"
  else if pyEndsWith path ".txt" then "text/plain"
  else "application/octet-stream"

/-- The `known_types` list of `_detect_module_type` (hub.py lines 422-429). -/
def known_types : List String :=
  ["Predict", "ChainOfThought", "ChainOfThoughtWithHint", "ProgramOfThought",
   "ReAct", "MultiChainComparison"]

/-- `_detect_module_type` (hub.py lines 413-435) as a function of the
instance's class name (`instance.__class__.__name__`). -/
def _detect_module_type (class_name : String) : Option String :=
  if known_types.contains class_name then some class_name else none

/-- `_package_program` (hub.py lines 293-355).  `content` is what the host
program's `save` hook wrote (external), `jsonParse` stands for
`json.loads(content.decode("utf-8"))` returning `none` on either decode or
parse failure (both absorbed by the source's `try`/`except`), `class_name`
is the instance's class name, and `sha` is the SHA-256 primitive. -/
def _package_program (sha : Bytes → String) (jsonParse : Bytes → Option JVal)
    (class_name : String) (identifier : String) (content : Bytes)
    (artifact_name : Option String) : Except HubError HubPackage :=
  let name := pyStrip identifier
  if name = "" ∨ pyContains name '/' then .error .invalidIdentifier
  else
    let artifact_filename :=
      match artifact_name with
      | some a => if a = "" then name ++ ".json" else a
      | none => name ++ ".json"
    let dspy_metadata :=
      match jsonParse content with
      | some (.dict entries) =>
        match alGet entries "metadata" with
        | some (.dict m) => m
        | _ => []
      | _ => []
    let dspy_metadata :=
      match _detect_module_type class_name with
      | some module_type => alInsert dspy_metadata "module_type" (JVal.str module_type)
      | none => dspy_metadata
    let sha256 := sha content
    let storage_path := "packages/" ++ name ++ "/" ++ artifact_filename
    let hub_file : HubFile :=
      { source := storage_path, target := artifact_filename,
        content := content, sha256 := sha256 }
    let manifest : List (String × JVal) :=
      [("slug", JVal.str name),
       ("name", JVal.str name),
       ("files", JVal.arr
          [JVal.dict [("source", JVal.str storage_path),
                      ("target", JVal.str artifact_filename),
                      ("sha256", JVal.str sha256)]]),
       ("metadata", JVal.dict dspy_metadata),
       ("hash", JVal.str (sha (utf8Bytes sha256)))]
    .ok { identifier := name, manifest := manifest, files := [hub_file] }

/-- `DEFAULT_REGISTRY_URL` (config.py line 10). -/
def DEFAULT_REGISTRY_URL : String := "https://api.dspyhub.com/index.json"

/-- `REGISTRY_ENV_VAR` (config.py line 11). -/
def REGISTRY_ENV_VAR : String := "DSPY_HUB_REGISTRY"

/-- `DEV_KEY_ENV` (hub.py line 22). -/
def DEV_KEY_ENV : String := "DSPY_HUB_DEV_KEY"

/-- `Settings` (config.py lines 14-18). -/
structure Settings where
  registry : String
deriving Repr, DecidableEq

/-- Substring test for the scheme check `"://" not in candidate`
(config.py line 28). -/
def listHasSub (pat : List Char) : List Char → Bool
  | [] => pat.isEmpty
  | c :: rest => pat.isPrefixOf (c :: rest) || listHasSub pat rest

/-- `load_settings` (config.py lines 21-32).  `envVal` is
`os.getenv(REGISTRY_ENV_VAR)` and `expand` stands for
`str(Path(candidate).expanduser())`, the external path expansion applied
when the override has no URL scheme. -/
def load_settings (expand : String → String) (envVal : Option String) :
    Settings :=
  match envVal with
  | some override =>
    let candidate := pyStrip override
    if candidate = "" then { registry := DEFAULT_REGISTRY_URL }
    else if listHasSub "://".toList candidate.toList then
      { registry := candidate }
    else { registry := expand candidate }
  | none => { registry := DEFAULT_REGISTRY_URL }

/-- One file of the outbound publish payload (`files_payload` entries,
hub.py lines 212-220), with the raw bytes in place of their base64
encoding. -/
structure FilePayload where
  path : String
  target : String
  sha256 : String
  content : Bytes
  contentType : String
deriving Repr, DecidableEq

/-- The publish request `save_to_hub` hands to the transport (hub.py lines
225-244): everything the PUT carries, with the structured payload in place
of its `json.dumps` serialization and the raw registry location in place
of the `urljoin` endpoint arithmetic. -/
structure SaveRequest where
  name : String
  registryLocation : String
  manifest : List (String × JVal)
  metadata : List (String × JVal)
  files : List FilePayload
  token : String

/-- `save_to_hub` (hub.py lines 144-260) up to the network boundary: the
success value is the fully assembled request, so an error return means no
request was ever constructed.  `env` is `os.getenv`, `expand` the path
expansion used by `load_settings`. -/
def save_to_hub (expand : String → String) (env : String → Option String)
    (identifier : String) (package : HubPackage)
    (package_metadata : List (String × JVal)) (registry : Option String)
    (dev_key : Option String) : Except HubError SaveRequest :=
  let name := package.identifier
  if identifier ≠ "" ∧ identifier ≠ name then
    .error (.identifierMismatch name identifier)
  else if pyContains name '/' then .error .bareNameRequired
  else
    let settings := load_settings expand (env REGISTRY_ENV_VAR)
    let registry_location :=
      match registry with
      | some r => if r = "" then settings.registry else r
      | none => settings.registry
    let dev_token :=
      match dev_key with
      | some k => if k = "" then env DEV_KEY_ENV else some k
      | none => env DEV_KEY_ENV
    match dev_token with
    | none => .error .missingCredential
    | some tok =>
      if tok = "" then .error .missingCredential
      else
        let merged_metadata :=
          dictMerge (asDictEntries (alGet package.manifest "metadata"))
            package_metadata
        let payload_manifest := alInsert package.manifest "name" (JVal.str name)
        let version :=
          match alGet package_metadata "version" with
          | some v => v
          | none =>
            match alGet payload_manifest "version" with
            | some v => v
            | none => JVal.str "0.0.0"
        let payload_manifest := alInsert payload_manifest "version" version
        let description :=
          match alGet package_metadata "description" with
          | some v => v
          | none =>
            match alGet payload_manifest "description" with
            | some v => v
            | none => JVal.str ""
        let payload_manifest := alInsert payload_manifest "description" description
        let payload_manifest :=
          match alGet package_metadata "tags" with
          | some tags => alInsert payload_manifest "tags" tags
          | none => payload_manifest
        let payload_manifest :=
          alInsert payload_manifest "metadata" (JVal.dict merged_metadata)
        let manifest_files :=
          package.files.map (fun hub_file =>
            let relative_target := lstripSlash hub_file.target
            let storage_path :=
              if hub_file.source = "" then
                "packages/" ++ name ++ "/" ++ relative_target
              else hub_file.source
            JVal.dict [("source", JVal.str storage_path),
                       ("target", JVal.str hub_file.target),
                       ("sha256", JVal.str hub_file.sha256)])
        let files_payload :=
          package.files.map (fun hub_file =>
            { path := lstripSlash hub_file.target,
              target := hub_file.target,
              sha256 := hub_file.sha256,
              content := hub_file.content,
              contentType := _guess_mime hub_file.target : FilePayload })
        let payload_manifest :=
          alInsert payload_manifest "files" (JVal.arr manifest_files)
        .ok { name := name, registryLocation := registry_location,
              manifest := payload_manifest, metadata := merged_metadata,
              files := files_payload, token := tok }

/-- Modelled from the spec: the file-resolution reference definition exactly
as claimed (spec section 4.5) — no hint: first file in declaration order;
with a hint: the file whose target exactly equals the hint (first match
wins), otherwise the first file whose target ends with the hint's basename;
no match: `ArtifactNotFound` naming the package and the hint. -/
def resolveSpec (package : HubPackage) (hint : Option String) :
    Except HubError HubFile :=
  match hint with
  | none =>
    match package.files with
    | [] => .error .indexError
    | f :: _ => .ok f
  | some t =>
    match package.files.find? (fun f => f.target = t) with
    | some f => .ok f
    | none =>
      match package.files.find? (fun f => pyEndsWith f.target (_default_target t)) with
      | some f => .ok f
      | none => .error (.artifactNotFound package.identifier t)

/-- Modelled from the spec: the amended file-resolution reference — exact
matching returns the LAST file in declaration order whose target equals the
hint (later files shadow earlier ones in the target-keyed map), the suffix
fallback returns the first file whose target ends with the hint's basename,
and an empty-string hint counts as no hint. -/
def resolveAmended (package : HubPackage) (t : String) :
    Except HubError HubFile :=
  match package.files.reverse.find? (fun f => f.target = t) with
  | some f => .ok f
  | none =>
    match package.files.find? (fun f => pyEndsWith f.target (_default_target t)) with
    | some f => .ok f
    | none => .error (.artifactNotFound package.identifier t)

/-- Discriminator for the identifier-mismatch error of a publish result. -/
def isIdentifierMismatchError : Except HubError SaveRequest → Bool
  | .error (.identifierMismatch _ _) => true
  | _ => false

/-- A minimal already-packaged value with identifier "demo", as
`_package_program` would produce for an empty artifact. -/
def pkgDemo : HubPackage :=
  { identifier := "demo", manifest := [("metadata", JVal.dict [])], files := [] }

/-- A package holding two distinct files that share the target "t.json". -/
def pkgDupTargets : HubPackage :=
  { identifier := "a/dup",
    manifest := [],
    files := [{ source := "s1", target := "t.json", content := [1], sha256 := "d1" },
              { source := "s2", target := "t.json", content := [2], sha256 := "d2" }] }

/-- An environment with no variables set. -/
def envEmpty : String → Option String := fun _ => none

/-- Identity stand-in for the external path expansion. -/
def expandId : String → String := fun s => s

/-- A constant stand-in for the SHA-256 hex primitive, used to instantiate
witnesses (the development's theorems hold for every hash function). -/
def shaConst : Bytes → String := fun _ => "d"

/-- A constant stand-in for the repository fetch capability. -/
def fetchConst : String → Bytes := fun _ => [1]

/-- Concrete fixture: one declared file entry that even carries a bogus
declared digest, which the pipeline must ignore. -/
def c1Spec : List (String × JVal) :=
  [("source", JVal.str "s"), ("sha256", JVal.str "bogus")]

/-- The package the read path materializes from identifier "a/b", an empty
raw manifest and the single entry `c1Spec`, under `fetchConst`/`shaConst`. -/
def pkgAB : HubPackage :=
  { identifier := "a/b",
    manifest :=
      [("files", JVal.arr [JVal.dict
          [("source", JVal.str "s"), ("sha256", JVal.str "d"),
           ("target", JVal.str "s")]]),
       ("author", JVal.str "a"), ("name", JVal.str "b"),
       ("metadata", JVal.dict []), ("hash", JVal.str "d"),
       ("slug", JVal.str "a/b")],
    files := [{ source := "s", target := "s", content := [1], sha256 := "d" }] }

/-- Concrete fixture: a declared file entry with no target field. -/
def c8Spec : List (String × JVal) :=
  [("source", JVal.str "packages/a/b/f.json")]

/-- The package the read path materializes from identifier "a/b", an empty
raw manifest and the single entry `c8Spec`, under `fetchConst`/`shaConst`. -/
def pkgC8 : HubPackage :=
  { identifier := "a/b",
    manifest :=
      [("files", JVal.arr [JVal.dict
          [("source", JVal.str "packages/a/b/f.json"),
           ("target", JVal.str "f.json"), ("sha256", JVal.str "d")]]),
       ("author", JVal.str "a"), ("name", JVal.str "b"),
       ("metadata", JVal.dict []), ("hash", JVal.str "d"),
       ("slug", JVal.str "a/b")],
    files := [{ source := "packages/a/b/f.json", target := "f.json",
                content := [1], sha256 := "d" }] }

/-- The artifact bytes named by the spec's round-trip example, i.e. the
UTF-8 encoding of the JSON text with top-level key "metadata" mapping "k"
to 1 (Python notation: a bytes literal of that JSON object). -/
def demoArtifactBytes : Bytes :=
  utf8Bytes "\x7b\"metadata\":\x7b\"k\":1\x7d\x7d"

/-- A stand-in for the external JSON decoder that behaves as JSON semantics
demand on the demo artifact bytes. -/
def jsonParseDemo : Bytes → Option JVal :=
  fun _ => some (JVal.dict [("metadata", JVal.dict [("k", JVal.num 1)])])

/-- The package `_package_program` assembles for identifier "demo" from the
demo artifact bytes, under `shaConst`/`jsonParseDemo` and a custom (not
auto-detected) module class. -/
def pkgDemoAssembled : HubPackage :=
  { identifier := "demo",
    manifest :=
      [("slug", JVal.str "demo"), ("name", JVal.str "demo"),
       ("files", JVal.arr [JVal.dict
          [("source", JVal.str "packages/demo/demo.json"),
           ("target", JVal.str "demo.json"), ("sha256", JVal.str "d")]]),
       ("metadata", JVal.dict [("k", JVal.num 1)]),
       ("hash", JVal.str "d")],
    files := [{ source := "packages/demo/demo.json", target := "demo.json",
                content := demoArtifactBytes, sha256 := "d" }] }

theorem alGet_alInsert_self {α : Type} (d : List (String × α)) (k : String)
    (v : α) : alGet (alInsert d k v) k = some v := by
  induction d with
  | nil => simp [alInsert, alGet]
  | cons hd tl ih =>
    obtain ⟨k', v'⟩ := hd
    by_cases hk : k' = k
    · subst hk
      simp [alInsert, alGet]
    · simp [alInsert, alGet, hk, ih]

theorem alGet_alInsert_ne {α : Type} (d : List (String × α)) {k k' : String}
    (v : α) (h : k ≠ k') : alGet (alInsert d k v) k' = alGet d k' := by
  induction d with
  | nil => simp [alInsert, alGet, h]
  | cons hd tl ih =>
    obtain ⟨k0, v0⟩ := hd
    by_cases hk : k0 = k
    · subst hk
      simp [alInsert, alGet, h]
    · simp [alInsert, alGet, hk, ih]

theorem alGet_append {α : Type} (d d' : List (String × α)) (k : String) :
    alGet (d ++ d') k = (alGet d k).or (alGet d' k) := by
  induction d with
  | nil => simp [alGet]
  | cons hd tl ih =>
    obtain ⟨k0, v0⟩ := hd
    by_cases hk : k0 = k
    · simp [alGet, hk]
    · simp [alGet, hk, ih]

theorem alGet_alSetdefault_ne {α : Type} (d : List (String × α)) {k k' : String}
    (v : α) (h : k ≠ k') : alGet (alSetdefault d k v) k' = alGet d k' := by
  unfold alSetdefault
  cases hg : alGet d k with
  | some w => rfl
  | none =>
    rw [alGet_append]
    simp [alGet, h]

theorem alGet_fileMapAux (files : List HubFile) (acc : List (String × HubFile))
    (t : String) :
    alGet (files.foldl (fun a f => alInsert a f.target f) acc) t =
      (files.reverse.find? (fun f => f.target = t)).or (alGet acc t) := by
  induction files generalizing acc with
  | nil => simp [alGet]
  | cons f rest ih =>
    simp only [List.foldl_cons, List.reverse_cons, List.find?_append, ih]
    by_cases hft : f.target = t
    · simp [List.find?, hft, alGet_alInsert_self]
      cases rest.reverse.find? (fun f => f.target = t) <;> simp
    · simp [List.find?, hft, alGet_alInsert_ne _ _ hft]

theorem alGet_file_map (package : HubPackage) (t : String) :
    alGet (file_map package) t =
      package.files.reverse.find? (fun f => f.target = t) := by
  unfold file_map
  rw [alGet_fileMapAux]
  simp [alGet]

theorem alGet_dictMerge_of_none (a b : List (String × JVal)) (k : String)
    (h : alGet b k = none) : alGet (dictMerge a b) k = alGet a k := by
  unfold dictMerge
  induction b generalizing a with
  | nil => rfl
  | cons hd tl ih =>
    obtain ⟨k0, v0⟩ := hd
    simp only [alGet] at h
    by_cases hk : k0 = k
    · simp [hk] at h
    · simp only [if_neg hk] at h
      simp only [List.foldl_cons]
      rw [ih _ h, alGet_alInsert_ne _ _ hk]

theorem alGet_eq_none_of_not_mem {α : Type} (d : List (String × α))
    (k : String) (h : k ∉ d.map Prod.fst) : alGet d k = none := by
  induction d with
  | nil => rfl
  | cons hd tl ih =>
    obtain ⟨k0, v0⟩ := hd
    simp only [List.map_cons, List.mem_cons] at h
    push_neg at h
    simp only [alGet]
    rw [if_neg (fun he => h.1 he.symm), ih h.2]

theorem alGet_dictMerge_of_some (a b : List (String × JVal)) (k : String)
    (v : JVal) (hnd : (b.map Prod.fst).Nodup) (h : alGet b k = some v) :
    alGet (dictMerge a b) k = some v := by
  induction b generalizing a with
  | nil => simp [alGet] at h
  | cons hd tl ih =>
    obtain ⟨k0, v0⟩ := hd
    simp only [List.map_cons, List.nodup_cons] at hnd
    simp only [alGet] at h
    by_cases hk : k0 = k
    · subst hk
      have h2 : v0 = v := by simpa using h
      subst h2
      have htl : alGet tl k0 = none :=
        alGet_eq_none_of_not_mem tl k0 hnd.1
      show alGet (dictMerge (alInsert a k0 v0) tl) k0 = some v0
      rw [alGet_dictMerge_of_none _ _ _ htl, alGet_alInsert_self]
    · rw [if_neg hk] at h
      exact ih (alInsert a k0 v0) hnd.2 h

theorem intercalate_single (x : String) : String.intercalate "::" [x] = x := by
  simp [String.intercalate, String.intercalate.go]

theorem materializeFiles_digests (fetch : String → Bytes) (sha : Bytes → String)
    (specs : List (List (String × JVal))) (fs : List HubFile) (ufs : List JVal)
    (h : materializeFiles fetch sha specs = some (fs, ufs)) :
    ∀ f ∈ fs, f.content = fetch f.source ∧ f.sha256 = sha f.content := by
  induction specs generalizing fs ufs with
  | nil =>
    simp only [materializeFiles, Option.some.injEq, Prod.mk.injEq] at h
    rw [← h.1]
    intro f hf
    simp at hf
  | cons spec rest ih =>
    simp only [materializeFiles, Option.bind_eq_some, Option.some.injEq,
      Prod.mk.injEq] at h
    obtain ⟨source, hs, target, ht, ⟨fs', ufs'⟩, hr, hfs, hufs⟩ := h
    rw [← hfs]
    intro f hf
    rcases List.mem_cons.mp hf with hhd | htl
    · subst hhd
      exact ⟨rfl, rfl⟩
    · exact ih fs' ufs' hr f htl

theorem materializeFiles_entries (fetch : String → Bytes) (sha : Bytes → String)
    (specs : List (List (String × JVal))) (fs : List HubFile) (ufs : List JVal)
    (h : materializeFiles fetch sha specs = some (fs, ufs)) :
    ∀ i spec f, specs.get? i = some spec → fs.get? i = some f →
      specSource spec = some f.source ∧ specTarget spec f.source = some f.target := by
  induction specs generalizing fs ufs with
  | nil =>
    intro i spec f hspec hf
    simp at hspec
  | cons spec0 rest ih =>
    simp only [materializeFiles, Option.bind_eq_some, Option.some.injEq,
      Prod.mk.injEq] at h
    obtain ⟨source, hs, target, ht, ⟨fs', ufs'⟩, hr, hfs, hufs⟩ := h
    rw [← hfs]
    intro i spec f hspec hf
    cases i with
    | zero =>
      simp only [List.get?_cons_zero, Option.some.injEq] at hspec hf
      subst hspec
      rw [← hf]
      exact ⟨hs, ht⟩
    | succ n =>
      simp only [List.get?_cons_succ] at hspec hf
      exact ih fs' ufs' hr n spec f hspec hf

theorem load_from_hub_inv (fetch : String → Bytes) (sha : Bytes → String)
    (identifier : String) (raw : List (String × JVal))
    (specs : List (List (String × JVal))) (pkg : HubPackage)
    (h : load_from_hub fetch sha identifier raw specs = .ok pkg) :
    ¬(identifier = "" ∨ pyContains identifier '/' = false) ∧
    ∃ ufs, materializeFiles fetch sha specs = some (pkg.files, ufs) ∧
      pkg.identifier = identifier ∧
      pkg.manifest =
        (let m1 := alInsert raw "files" (JVal.arr ufs)
         let m2 := alSetdefault m1 "author" (JVal.str (splitFirstPy identifier).1)
         let m3 := alSetdefault m2 "name" (JVal.str (splitFirstPy identifier).2)
         let m4 :=
           match alGet m3 "metadata" with
           | some (.dict _) => m3
           | _ => alInsert m3 "metadata" (JVal.dict [])
         let m5 :=
           if pkg.files.isEmpty then m4
           else
             alInsert m4 "hash"
               (JVal.str (sha (utf8Bytes
                 (String.intercalate "::" (pkg.files.map (fun f => f.sha256))))))
         alInsert m5 "slug" (JVal.str identifier)) := by
  unfold load_from_hub at h
  split at h
  · exact absurd h (by simp)
  · next hguard =>
    split at h
    · exact absurd h (by simp)
    · next files updated_files hmat =>
      simp only [Except.ok.injEq] at h
      subst h
      exact ⟨hguard, updated_files, hmat, rfl, rfl⟩

theorem load_from_hub_hash (fetch : String → Bytes) (sha : Bytes → String)
    (identifier : String) (raw : List (String × JVal))
    (specs : List (List (String × JVal))) (pkg : HubPackage)
    (h : load_from_hub fetch sha identifier raw specs = .ok pkg) :
    (pkg.files = [] → alGet pkg.manifest "hash" = alGet raw "hash") ∧
    (pkg.files ≠ [] →
      alGet pkg.manifest "hash" =
        some (JVal.str (sha (utf8Bytes
          (String.intercalate "::" (pkg.files.map (fun f => f.sha256))))))) := by
  obtain ⟨-, ufs, hmat, hid, hman⟩ :=
    load_from_hub_inv fetch sha identifier raw specs pkg h
  rw [hman]
  dsimp only
  constructor
  · intro he
    rw [alGet_alInsert_ne _ _ (by decide : "slug" ≠ "hash")]
    rw [if_pos (by simp [he])]
    have hrest :
        alGet (alSetdefault
          (alSetdefault (alInsert raw "files" (JVal.arr ufs)) "author"
            (JVal.str (splitFirstPy identifier).1)) "name"
          (JVal.str (splitFirstPy identifier).2)) "hash" = alGet raw "hash" := by
      rw [alGet_alSetdefault_ne _ _ (by decide : "name" ≠ "hash"),
        alGet_alSetdefault_ne _ _ (by decide : "author" ≠ "hash"),
        alGet_alInsert_ne _ _ (by decide : "files" ≠ "hash")]
    split
    · exact hrest
    · rw [alGet_alInsert_ne _ _ (by decide : "metadata" ≠ "hash")]
      exact hrest
  · intro hne
    rw [alGet_alInsert_ne _ _ (by decide : "slug" ≠ "hash")]
    rw [if_neg (by simp [hne])]
    rw [alGet_alInsert_self]

theorem dropWhile_eq_self_of_front {α : Type} (p : α → Bool) {l' l : List α}
    (hpre : l' <+: l) (hl : l.dropWhile p = l) : l'.dropWhile p = l' := by
  cases l' with
  | nil => rfl
  | cons c r =>
    obtain ⟨t, ht⟩ := hpre
    have hc : p c = false := by
      subst ht
      rw [List.cons_append, List.dropWhile_cons] at hl
      by_cases hpc : p c = true
      · rw [if_pos hpc] at hl
        have h2 := congrArg List.length hl
        have hle := (List.dropWhile_suffix (l := r ++ t) p).length_le
        simp [List.length_append] at h2 hle
        omega
      · simpa using hpc
    rw [List.dropWhile_cons, hc]
    simp

theorem pyStripL_idem (l : List Char) : pyStripL (pyStripL l) = pyStripL l := by
  unfold pyStripL
  have ha : List.dropWhile isPyWS (List.dropWhile isPyWS l) =
      List.dropWhile isPyWS l := List.dropWhile_idempotent _ _
  have hpre : List.rdropWhile isPyWS (List.dropWhile isPyWS l) <+:
      List.dropWhile isPyWS l := List.rdropWhile_prefix _ _
  have hr : List.dropWhile isPyWS
      (List.rdropWhile isPyWS (List.dropWhile isPyWS l)) =
      List.rdropWhile isPyWS (List.dropWhile isPyWS l) :=
    dropWhile_eq_self_of_front _ hpre ha
  rw [hr, List.rdropWhile_idempotent]

theorem pyStrip_idem (s : String) : pyStrip (pyStrip s) = pyStrip s := by
  show String.mk (pyStripL (pyStripL s.toList)) = String.mk (pyStripL s.toList)
  rw [pyStripL_idem]

theorem pyStrip_of_all_ws (s : String) (h : ∀ c ∈ s.toList, isPyWS c = true) :
    pyStrip s = "" := by
  unfold pyStrip pyStripL
  rw [List.dropWhile_eq_nil_iff.mpr (by simpa using h)]
  rfl

/-- C1: for every package produced by the read path (load_from_hub) or the
write path (_package_program), every file's stored digest equals the
SHA-256 hex of that file's content bytes, recomputed from the bytes
actually fetched or saved (the property holds for every hash function
`sha` and every declared digest in the input manifest, so no declared
value is ever trusted). -/
theorem C1_digest_recomputed :
    (∀ (fetch : String → Bytes) (sha : Bytes → String) (identifier : String)
       (raw : List (String × JVal)) (specs : List (List (String × JVal)))
       (pkg : HubPackage),
       load_from_hub fetch sha identifier raw specs = .ok pkg →
       ∀ f ∈ pkg.files, f.sha256 = sha f.content ∧ f.content = fetch f.source) ∧
    (∀ (sha : Bytes → String) (jsonParse : Bytes → Option JVal)
       (class_name identifier : String) (content : Bytes)
       (artifact_name : Option String) (pkg : HubPackage),
       _package_program sha jsonParse class_name identifier content
         artifact_name = .ok pkg →
       ∀ f ∈ pkg.files, f.sha256 = sha f.content ∧ f.content = content) := by
  constructor
  · intro fetch sha identifier raw specs pkg h f hf
    obtain ⟨-, ufs, hmat, -, -⟩ :=
      load_from_hub_inv fetch sha identifier raw specs pkg h
    obtain ⟨hcontent, hsha⟩ :=
      materializeFiles_digests fetch sha specs pkg.files ufs hmat f hf
    exact ⟨hsha, hcontent⟩
  · intro sha jsonParse class_name identifier content artifact_name pkg h f hf
    simp only [_package_program] at h
    by_cases hg : pyStrip identifier = "" ∨ pyContains (pyStrip identifier) '/' = true
    · rw [if_pos hg] at h
      exact absurd h (by simp)
    · rw [if_neg hg] at h
      simp only [Except.ok.injEq] at h
      subst h
      simp only [List.mem_singleton] at hf
      subst hf
      exact ⟨rfl, rfl⟩

/-- Witness for C1 at a concrete input. -/
theorem C1_digest_recomputed_witness :
    ({ source := "s", target := "s", content := [1], sha256 := "d" }
        : HubFile).sha256 =
      shaConst ({ source := "s", target := "s", content := [1], sha256 := "d" }
        : HubFile).content ∧
    ({ source := "s", target := "s", content := [1], sha256 := "d" }
        : HubFile).content = fetchConst "s" := by
  have happ := C1_digest_recomputed.1 fetchConst shaConst "a/b" [] [c1Spec]
    { identifier := "a/b",
      manifest :=
        [("files", JVal.arr [JVal.dict
            [("source", JVal.str "s"), ("sha256", JVal.str "d"),
             ("target", JVal.str "s")]]),
         ("author", JVal.str "a"), ("name", JVal.str "b"),
         ("metadata", JVal.dict []), ("hash", JVal.str "d"),
         ("slug", JVal.str "a/b")],
      files := [{ source := "s", target := "s", content := [1], sha256 := "d" }] }
    (by rfl) { source := "s", target := "s", content := [1], sha256 := "d" }
    (by decide)
  exact happ

/-- C2 counterexample: materializing identifier "a/b" from a raw manifest
that already declares a "hash" entry, with an empty declared file list,
yields a package with no files whose manifest still has the declared
"hash" entry — the claim says the manifest has no "hash" entry whenever
the files sequence is empty. -/
theorem C2_counterexample :
    (load_from_hub fetchConst shaConst "a/b"
        [("hash", JVal.str "bogus")] []).map
      (fun p => (p.files.isEmpty, alGet p.manifest "hash")) =
    .ok (true, some (JVal.str "bogus")) := by
  rfl

/-- C2 (amended): whenever the files sequence is non-empty, the manifest's
"hash" equals the SHA-256 of the UTF-8 bytes of the per-file digests joined
with "::" in declaration order, on both the read path and the write path;
whenever the files sequence is empty, materialization does not set "hash",
so the manifest's "hash" entry is exactly whatever the raw input manifest
declared (in particular absent when the raw manifest had none). -/
theorem C2_aggregate_hash :
    (∀ (fetch : String → Bytes) (sha : Bytes → String) (identifier : String)
       (raw : List (String × JVal)) (specs : List (List (String × JVal)))
       (pkg : HubPackage),
       load_from_hub fetch sha identifier raw specs = .ok pkg →
       (pkg.files ≠ [] →
         alGet pkg.manifest "hash" =
           some (JVal.str (sha (utf8Bytes
             (String.intercalate "::" (pkg.files.map (fun f => f.sha256))))))) ∧
       (pkg.files = [] → alGet pkg.manifest "hash" = alGet raw "hash")) ∧
    (∀ (sha : Bytes → String) (jsonParse : Bytes → Option JVal)
       (class_name identifier : String) (content : Bytes)
       (artifact_name : Option String) (pkg : HubPackage),
       _package_program sha jsonParse class_name identifier content
         artifact_name = .ok pkg →
       alGet pkg.manifest "hash" =
         some (JVal.str (sha (utf8Bytes
           (String.intercalate "::" (pkg.files.map (fun f => f.sha256))))))) := by
  constructor
  · intro fetch sha identifier raw specs pkg h
    obtain ⟨h1, h2⟩ := load_from_hub_hash fetch sha identifier raw specs pkg h
    exact ⟨h2, h1⟩
  · intro sha jsonParse class_name identifier content artifact_name pkg h
    simp only [_package_program] at h
    by_cases hg : pyStrip identifier = "" ∨ pyContains (pyStrip identifier) '/' = true
    · rw [if_pos hg] at h
      exact absurd h (by simp)
    · rw [if_neg hg] at h
      simp only [Except.ok.injEq] at h
      subst h
      simp [alGet, intercalate_single]

/-- Witness for the amended C2 at a concrete input with one file. -/
theorem C2_aggregate_hash_witness :
    alGet pkgAB.manifest "hash" =
      some (JVal.str (shaConst (utf8Bytes
        (String.intercalate "::" (pkgAB.files.map (fun f => f.sha256)))))) :=
  (C2_aggregate_hash.1 fetchConst shaConst "a/b" [] [c1Spec] pkgAB
    (by rfl)).1 (by simp [pkgAB])

/-- C3 counterexample: the identifier "a/" does not split on the first "/"
into a non-empty author and a non-empty name (so `_split_identifier`
rejects it), yet the read path's own identifier check in `load_from_hub`
accepts it and materialization proceeds — the claim says identifier
parsing on the read path fails for every such identifier. -/
theorem C3_counterexample :
    (load_from_hub fetchConst shaConst "a/" [] []).isOk = true ∧
    _split_identifier "a/" = .error HubError.invalidIdentifier := by
  exact ⟨rfl, rfl⟩

/-- C3 (amended): under the namespaced regime, `_split_identifier` yields
("a", "b") on "a/b" and fails with InvalidIdentifier on "", "a/", "/b" and
"noSlash"; the read path (`load_from_hub`), however, performs only a
weaker check of its own: it fails with InvalidIdentifier exactly when the
identifier is empty or contains no "/", so identifiers like "a/" or "/b"
pass it. -/
theorem C3_identifier_parsing :
    _split_identifier "a/b" = .ok ("a", "b") ∧
    _split_identifier "" = .error HubError.invalidIdentifier ∧
    _split_identifier "a/" = .error HubError.invalidIdentifier ∧
    _split_identifier "/b" = .error HubError.invalidIdentifier ∧
    _split_identifier "noSlash" = .error HubError.invalidIdentifier ∧
    (∀ (fetch : String → Bytes) (sha : Bytes → String) (identifier : String)
       (raw : List (String × JVal)) (specs : List (List (String × JVal))),
       load_from_hub fetch sha identifier raw specs =
           .error HubError.invalidIdentifier ↔
         (identifier = "" ∨ pyContains identifier '/' = false)) := by
  refine ⟨rfl, rfl, rfl, rfl, rfl, ?_⟩
  intro fetch sha identifier raw specs
  constructor
  · intro h
    unfold load_from_hub at h
    split at h
    · next hg => exact hg
    · split at h
      · exact absurd h (by simp)
      · exact absurd h (by simp)
  · intro hrhs
    unfold load_from_hub
    rw [if_pos hrhs]

/-- C4 counterexample: in a package with two distinct files sharing the
target "t.json", resolving with hint "t.json" returns the second file in
declaration order (the target-keyed map keeps the later file), while the
claim's reference definition ("the file whose target exactly equals the
hint", first match winning) returns the first. -/
theorem C4_counterexample :
    _select_package_file pkgDupTargets (some "t.json") =
      .ok { source := "s2", target := "t.json", content := [2], sha256 := "d2" } ∧
    resolveSpec pkgDupTargets (some "t.json") =
      .ok { source := "s1", target := "t.json", content := [1], sha256 := "d1" } ∧
    ({ source := "s1", target := "t.json", content := [1], sha256 := "d1" }
        : HubFile) ≠
      { source := "s2", target := "t.json", content := [2], sha256 := "d2" } := by
  exact ⟨rfl, rfl, by decide⟩

/-- C4 (amended): file resolution equals the reference definition with the
exact-match clause read as last-wins — with no hint (or the empty-string
hint, which Python truthiness treats as no hint) the first file in
declaration order is returned; with a non-empty hint, the last file whose
target exactly equals the hint, otherwise the first file whose target ends
with the hint's basename, otherwise ArtifactNotFound naming the package
and the hint. -/
theorem C4_resolution (package : HubPackage) (t : String) (ht : t ≠ "") :
    (∀ f, package.files.head? = some f →
      _select_package_file package none = .ok f ∧
      _select_package_file package (some "") = .ok f) ∧
    _select_package_file package (some t) = resolveAmended package t := by
  constructor
  · intro f hf
    cases hfl : package.files with
    | nil => rw [hfl] at hf; simp at hf
    | cons f0 rest =>
      rw [hfl] at hf
      simp only [List.head?_cons, Option.some.injEq] at hf
      subst hf
      constructor
      · simp only [_select_package_file, hfl]
      · simp [_select_package_file, hfl]
  · simp only [_select_package_file, resolveAmended]
    rw [if_neg ht, alGet_file_map]

/-- Witness for the amended C4 at concrete inputs. -/
theorem C4_resolution_witness :
    _select_package_file pkgDupTargets none =
      .ok { source := "s1", target := "t.json", content := [1], sha256 := "d1" } ∧
    _select_package_file pkgDupTargets (some "nested/t.json") =
      resolveAmended pkgDupTargets "nested/t.json" := by
  constructor
  · exact ((C4_resolution pkgDupTargets "x" (by decide)).1
      { source := "s1", target := "t.json", content := [1], sha256 := "d1" }
      (by rfl)).1
  · exact (C4_resolution pkgDupTargets "nested/t.json" (by decide)).2

/-- C5: assembling a publish manifest for identifier "demo" from the demo
artifact bytes (whose embedded metadata maps "k" to 1) yields exactly one
file entry with target "demo.json", and merging with caller metadata
mapping "version" to "1.0" yields the metadata with "k" mapped to 1 and
"version" to "1.0"; in general the caller-supplied value wins whenever
embedded and caller metadata share a key. -/
theorem C5_metadata_merge :
    (∀ (sha : Bytes → String) (jsonParse : Bytes → Option JVal)
       (pkg : HubPackage),
       jsonParse demoArtifactBytes =
         some (JVal.dict [("metadata", JVal.dict [("k", JVal.num 1)])]) →
       _package_program sha jsonParse "CustomModule" "demo" demoArtifactBytes
         none = .ok pkg →
       pkg.files.map (fun f => f.target) = ["demo.json"] ∧
       dictMerge (asDictEntries (alGet pkg.manifest "metadata"))
         [("version", JVal.str "1.0")] =
         [("k", JVal.num 1), ("version", JVal.str "1.0")]) ∧
    (∀ (embedded caller : List (String × JVal)) (k : String) (v : JVal),
       (caller.map Prod.fst).Nodup → alGet caller k = some v →
       alGet (dictMerge embedded caller) k = some v) := by
  constructor
  · intro sha jsonParse pkg hjson h
    simp only [_package_program, hjson] at h
    rw [if_neg (by decide)] at h
    simp only [Except.ok.injEq] at h
    subst h
    exact ⟨rfl, rfl⟩
  · intro embedded caller k v hnd hget
    exact alGet_dictMerge_of_some embedded caller k v hnd hget

/-- Witness for C5 at the concrete assembled package, plus a concrete
conflicting-key merge resolved in the caller's favour. -/
theorem C5_metadata_merge_witness :
    (pkgDemoAssembled.files.map (fun f => f.target) = ["demo.json"] ∧
      dictMerge (asDictEntries (alGet pkgDemoAssembled.manifest "metadata"))
        [("version", JVal.str "1.0")] =
        [("k", JVal.num 1), ("version", JVal.str "1.0")]) ∧
    alGet (dictMerge [("k", JVal.num 1)] [("k", JVal.num 2)]) "k" =
      some (JVal.num 2) := by
  constructor
  · exact C5_metadata_merge.1 shaConst jsonParseDemo pkgDemoAssembled rfl
      (by rfl)
  · exact C5_metadata_merge.2 [("k", JVal.num 1)] [("k", JVal.num 2)] "k"
      (JVal.num 2) (by simp) rfl

/-- C6: a publish call that passes the identifier validations (the caller
identifier is empty or equals the package's, and the package name has no
"/"), with no explicit dev token and with the credential environment
variable unset or empty, fails with MissingCredential; in this embedding
the network request is the success value, so the error return means no
request was ever constructed or sent. -/
theorem C6_missing_credential (expand : String → String)
    (env : String → Option String) (identifier : String)
    (package : HubPackage) (package_metadata : List (String × JVal))
    (registry : Option String)
    (hid : identifier = "" ∨ identifier = package.identifier)
    (hbare : pyContains package.identifier '/' = false)
    (henv : env DEV_KEY_ENV = none ∨ env DEV_KEY_ENV = some "") :
    save_to_hub expand env identifier package package_metadata registry none =
      .error HubError.missingCredential := by
  unfold save_to_hub
  rw [if_neg (by rcases hid with h | h <;> simp [h])]
  rw [if_neg (by simp [hbare])]
  rcases henv with h | h <;> simp [h]

/-- Witness for C6 at a concrete input. -/
theorem C6_missing_credential_witness :
    save_to_hub expandId envEmpty "" pkgDemo [] none none =
      .error HubError.missingCredential :=
  C6_missing_credential expandId envEmpty "" pkgDemo [] none
    (Or.inl rfl) (by decide) (Or.inl rfl)

/-- C7 counterexample: the empty caller identifier differs from the
package's identifier "demo", yet `save_to_hub` does not fail with
IdentifierMismatch (the guard `if identifier and identifier != name`
skips the check for a falsy identifier; here the call fails later with
MissingCredential instead). -/
theorem C7_counterexample :
    "" ≠ pkgDemo.identifier ∧
    isIdentifierMismatchError
      (save_to_hub expandId envEmpty "" pkgDemo [] none none) = false := by
  exact ⟨by decide, rfl⟩

/-- C7 (amended): for every publish call where the caller-supplied
identifier is non-empty and differs from the package's own identifier,
save_to_hub fails with IdentifierMismatch (and the package is never sent:
the error return precedes every other step). -/
theorem C7_identifier_mismatch (expand : String → String)
    (env : String → Option String) (identifier : String)
    (package : HubPackage) (package_metadata : List (String × JVal))
    (registry : Option String) (dev_key : Option String)
    (hne : identifier ≠ "") (hdiff : identifier ≠ package.identifier) :
    save_to_hub expand env identifier package package_metadata registry
      dev_key =
      .error (HubError.identifierMismatch package.identifier identifier) := by
  unfold save_to_hub
  rw [if_pos ⟨hne, hdiff⟩]

/-- Witness for the amended C7 at a concrete input. -/
theorem C7_identifier_mismatch_witness :
    save_to_hub expandId envEmpty "x" pkgDemo [] none none =
      .error (HubError.identifierMismatch "demo" "x") :=
  C7_identifier_mismatch expandId envEmpty "x" pkgDemo [] none none
    (by decide) (by decide)

/-- C8: for every file entry of a raw manifest that omits the target field,
materialization derives the target as the last "/"-separated segment of
the entry's source. -/
theorem C8_default_target (fetch : String → Bytes) (sha : Bytes → String)
    (identifier : String) (raw : List (String × JVal))
    (specs : List (List (String × JVal))) (pkg : HubPackage)
    (i : Nat) (spec : List (String × JVal)) (f : HubFile)
    (hok : load_from_hub fetch sha identifier raw specs = .ok pkg)
    (hspec : specs.get? i = some spec)
    (hf : pkg.files.get? i = some f)
    (hno : alGet spec "target" = none) :
    f.target = _default_target f.source := by
  obtain ⟨-, ufs, hmat, -, -⟩ :=
    load_from_hub_inv fetch sha identifier raw specs pkg hok
  obtain ⟨hs, ht⟩ :=
    materializeFiles_entries fetch sha specs pkg.files ufs hmat i spec f
      hspec hf
  simp only [specTarget, hno, Option.some.injEq] at ht
  exact ht.symm

/-- Witness for C8 at the spec's own example source path. -/
theorem C8_default_target_witness :
    _default_target "packages/a/b/f.json" = "f.json" ∧
    ({ source := "packages/a/b/f.json", target := "f.json", content := [1],
       sha256 := "d" } : HubFile).target =
      _default_target
        ({ source := "packages/a/b/f.json", target := "f.json",
           content := [1], sha256 := "d" } : HubFile).source := by
  constructor
  · rfl
  · exact C8_default_target fetchConst shaConst "a/b" [] [c8Spec] pkgC8 0
      c8Spec
      { source := "packages/a/b/f.json", target := "f.json", content := [1],
        sha256 := "d" }
      (by rfl) rfl rfl rfl

/-- C9: when a package contains two or more files with the same target,
resolving with that exact (non-empty) target as the hint returns the last
such file in declaration order, because the exact-match lookup is a
target-keyed map in which later files overwrite earlier ones. -/
theorem C9_last_wins (package : HubPackage) (t : String) (f : HubFile)
    (ht : t ≠ "")
    (hdup : 2 ≤ (package.files.filter (fun fl => fl.target = t)).length)
    (hlast : package.files.reverse.find? (fun fl => fl.target = t) = some f) :
    _select_package_file package (some t) = .ok f := by
  simp only [_select_package_file]
  rw [if_neg ht, alGet_file_map, hlast]

/-- Witness for C9 at a concrete package with duplicate targets. -/
theorem C9_last_wins_witness :
    _select_package_file pkgDupTargets (some "t.json") =
      .ok { source := "s2", target := "t.json", content := [2],
            sha256 := "d2" } :=
  C9_last_wins pkgDupTargets "t.json"
    { source := "s2", target := "t.json", content := [2], sha256 := "d2" }
    (by decide) (by decide) (by rfl)

/-- C10: when the registry-override variable is set to a string that is
empty or all whitespace, load_settings ignores it and returns the default
registry URL; in general the override is stripped of surrounding
whitespace before use, i.e. the settings depend only on the stripped
override. -/
theorem C10_registry_override :
    (∀ (expand : String → String) (s : String),
       (∀ c ∈ s.toList, isPyWS c = true) →
       load_settings expand (some s) = { registry := DEFAULT_REGISTRY_URL }) ∧
    (∀ (expand : String → String) (s : String),
       load_settings expand (some s) =
         load_settings expand (some (pyStrip s))) := by
  constructor
  · intro expand s h
    simp [load_settings, pyStrip_of_all_ws s h]
  · intro expand s
    simp only [load_settings, pyStrip_idem]

/-- Witness for C10 at concrete override values. -/
theorem C10_registry_override_witness :
    load_settings expandId (some " \t ") =
      { registry := DEFAULT_REGISTRY_URL } ∧
    load_settings expandId (some "  https://r.example/index.json  ") =
      load_settings expandId
        (some (pyStrip "  https://r.example/index.json  ")) := by
  constructor
  · exact C10_registry_override.1 expandId " \t " (by decide)
  · exact C10_registry_override.2 expandId "  https://r.example/index.json  "
